import Mathlib

/-!
Verification of the `sliceplots` 2D plotting module (`two_dimensional.py`).

The module's `Plot2D` class crops a 2D array to a viewing window, resolves
optional slice coordinates to indices, and composes a figure whose layout
depends on which slices were requested.  This file embeds the construction
(`Plot2D.__init__`) and the figure composition (`Plot2D.draw_fig`) as
executable Lean functions over rational-valued arrays (lists), with Python
and numpy behaviour (slicing, negative indexing, reductions on empty arrays)
made explicit, and proves properties of them.
-/

namespace Sliceplots

/-- A 2D numpy array, row-major: a list of rows. -/
abbrev Mat := List (List ℚ)

/-- Python slice `l[a:b]` for non-negative bounds: the elements at positions
`a, a+1, ..., b-1`, silently truncated to the list (no error is ever raised,
and `b ≤ a` gives the empty list). -/
def pySlice (l : List α) (a b : Nat) : List α :=
  (l.take b).drop a

/-- numpy 1D integer indexing `l[i]`: a negative index counts from the end
(`l[i]` is `l[i + len]` for `-len ≤ i < 0`); an index outside `[-len, len)`
is an `IndexError`, modelled as `none`. -/
def pyIdx (l : List ℚ) (i : Int) : Option ℚ :=
  if 0 ≤ i then
    if i < (l.length : Int) then some (l.getD i.toNat 0) else none
  else
    if -(l.length : Int) ≤ i then some (l.getD (i + (l.length : Int)).toNat 0) else none

/-- `pyIdx` as a fallible computation: `none` becomes a raised `IndexError`. -/
def pyIdxE (l : List ℚ) (i : Int) : Except String ℚ :=
  match pyIdx l i with
  | some x => .ok x
  | none => .error "IndexError"

/-- `np.min` / `np.amin` on a 1D array: raises (`.error`) on a zero-size
array, otherwise folds `min` over the elements. -/
def npMin (l : List ℚ) : Except String ℚ :=
  match l with
  | [] => .error "zero-size array to reduction operation"
  | x :: xs => .ok (xs.foldl min x)

/-- `np.max` / `np.amax` on a 1D array: raises (`.error`) on a zero-size
array, otherwise folds `max` over the elements. -/
def npMax (l : List ℚ) : Except String ℚ :=
  match l with
  | [] => .error "zero-size array to reduction operation"
  | x :: xs => .ok (xs.foldl max x)

/-- `np.amin` of a 2D array: the minimum over all entries; raises on an
array with a zero-length dimension. -/
def npAmin (m : Mat) : Except String ℚ :=
  npMin m.flatten

/-- `np.amax` of a 2D array: the maximum over all entries; raises on an
array with a zero-length dimension. -/
def npAmax (m : Mat) : Except String ℚ :=
  npMax m.flatten

/-- numpy row extraction `m[i, :]` for a non-negative `i`: an `IndexError`
when `i` is out of range. -/
def npRow (m : Mat) (i : Nat) : Except String (List ℚ) :=
  if i < m.length then .ok (m.getD i []) else .error "IndexError"

/-- numpy column extraction `m[:, j]` for a non-negative `j`: an
`IndexError` when `j` is out of range of a row. -/
def npCol (m : Mat) (j : Nat) : Except String (List ℚ) :=
  if m.all (fun r => j < r.length) then .ok (m.map (fun r => r.getD j 0))
  else .error "IndexError"

/-- Absolute value on ℚ, written with an explicit comparison so that it
evaluates by kernel reduction; equal to `|x|` (see `qabs_eq_abs`). -/
def qabs (x : ℚ) : ℚ :=
  if x < 0 then -x else x

/-- One step of a running first-minimum computation: keep the earlier
index on ties. -/
def argStep (f : Nat → ℚ) (best i : Nat) : Nat :=
  if f i < f best then i else best

/-- Modelled from the spec: the repository's `util.idx_from_val` helper is
imported by `two_dimensional.py`, but `util.py` is not among the source
files.  Spec section 4.1: given a 1D array of coordinate values and a target
value, return the integer index minimizing the absolute distance between
the array element and the target; a value outside the array's range thereby
clamps to a boundary index, and equidistant ties resolve consistently to
the lower index. -/
def idx_from_val (arr1d : List ℚ) (val : ℚ) : Nat :=
  (List.range arr1d.length).foldl (argStep (fun i => qabs (arr1d.getD i 0 - val))) 0

/-- Line-style options: `two_dimensional.py` line 151 builds the dict
`{"ls": "-", "color": "firebrick", "lw": 0.5}`. -/
structure SliceStyle where
  ls : String
  color : String
  lw : ℚ
deriving DecidableEq, Repr

/-- The shared default dict `slice_opts` of `draw_fig` (line 151), copied
into both `hslice_opts` and `vslice_opts`. -/
def slice_opts_default : SliceStyle :=
  { ls := "-", color := "firebrick", lw := 1/2 }

/-- A caller-supplied `hslice_opts` / `vslice_opts` dict: only the keys
present override the defaults (`dict.update`). -/
structure SliceStyleUpdate where
  ls : Option String := none
  color : Option String := none
  lw : Option ℚ := none
deriving DecidableEq, Repr

/-- Python `dict.update`: fields present in the update replace the
defaults. -/
def SliceStyle.update (o : SliceStyle) (u : SliceStyleUpdate) : SliceStyle :=
  { ls := u.ls.getD o.ls, color := u.color.getD o.color, lw := u.lw.getD o.lw }

/-- The keyword arguments `Plot2D.__init__` and `draw_fig` read, with the
source's defaults for absent keys (`kwargs.get`).  The axis labels are the
three positional label parameters of `__init__`, carried here for
convenience. -/
structure Kwargs where
  extent : Option (ℚ × ℚ × ℚ × ℚ) := none
  vmin : Option ℚ := none
  vmax : Option ℚ := none
  cbar : Bool := true
  norm : Option String := none
  hslice_val : Option ℚ := none
  vslice_val : Option ℚ := none
  hslice_opts : SliceStyleUpdate := {}
  vslice_opts : SliceStyleUpdate := {}
  text : String := ""
  figsize : ℚ × ℚ := (8, 8)
  cmap : Option String := none
  xlabel : String := ""
  ylabel : String := ""
  zlabel : String := ""
deriving DecidableEq, Repr

/-- The attributes `Plot2D.__init__` stores before `draw_fig` runs
(lines 58-108 of `two_dimensional.py`). -/
structure Plot2DState where
  extent : ℚ × ℚ × ℚ × ℚ
  data : Mat
  min_data : ℚ
  max_data : ℚ
  vmin : ℚ
  vmax : ℚ
  h_axis : List ℚ
  v_axis : List ℚ
  norm : Option String
  hslice_val : Option ℚ
  vslice_val : Option ℚ
  hslice_idx : Option Nat
  vslice_idx : Option Nat
  cbar : Bool
  text : String
deriving DecidableEq, Repr

/-- Lines 58-60: `extent` defaults to
`(np.min(h_axis), np.max(h_axis), np.min(v_axis), np.max(v_axis))`;
the `np.min`/`np.max` calls raise on an empty axis. -/
def resolveExtent (h_axis v_axis : List ℚ) (kw : Kwargs) :
    Except String (ℚ × ℚ × ℚ × ℚ) :=
  match kw.extent with
  | some e => .ok e
  | none =>
    match npMin h_axis, npMax h_axis, npMin v_axis, npMax v_axis with
    | .ok a, .ok b, .ok c, .ok d => .ok (a, b, c, d)
    | _, _, _, _ => .error "zero-size array to reduction operation"

/-- Line 66: the crop `arr2d[ymin_idx:ymax_idx, xmin_idx:xmax_idx]` of the
data to the index window computed from extent `e` by `idx_from_val`
(lines 62-64). -/
def cropData (arr2d : Mat) (h_axis v_axis : List ℚ) (e : ℚ × ℚ × ℚ × ℚ) : Mat :=
  (pySlice arr2d (idx_from_val v_axis e.2.2.1) (idx_from_val v_axis e.2.2.2)).map
    (fun r => pySlice r (idx_from_val h_axis e.1) (idx_from_val h_axis e.2.1))

/-- Line 73: the crop `h_axis[xmin_idx:xmax_idx]` of the horizontal axis. -/
def cropH (h_axis : List ℚ) (e : ℚ × ℚ × ℚ × ℚ) : List ℚ :=
  pySlice h_axis (idx_from_val h_axis e.1) (idx_from_val h_axis e.2.1)

/-- Line 74: the crop `v_axis[ymin_idx:ymax_idx]` of the vertical axis. -/
def cropV (v_axis : List ℚ) (e : ℚ × ℚ × ℚ × ℚ) : List ℚ :=
  pySlice v_axis (idx_from_val v_axis e.2.2.1) (idx_from_val v_axis e.2.2.2)

/-- Lines 62-93 of `Plot2D.__init__`, after the extent is resolved: crop
index lookup, cropping (`arr2d[ymin_idx:ymax_idx, xmin_idx:xmax_idx]`),
data min/max (raising on an empty crop), `vmin`/`vmax` defaulting, axis
cropping, and slice-index resolution against the cropped axes. -/
def Plot2D.initCore (arr2d : Mat) (h_axis v_axis : List ℚ)
    (e : ℚ × ℚ × ℚ × ℚ) (kw : Kwargs) : Except String Plot2DState :=
  match npAmin (cropData arr2d h_axis v_axis e), npAmax (cropData arr2d h_axis v_axis e) with
  | .ok mn, .ok mx =>
    .ok { extent := e, data := cropData arr2d h_axis v_axis e,
          min_data := mn, max_data := mx,
          vmin := kw.vmin.getD mn, vmax := kw.vmax.getD mx,
          h_axis := cropH h_axis e, v_axis := cropV v_axis e, norm := kw.norm,
          hslice_val := kw.hslice_val, vslice_val := kw.vslice_val,
          hslice_idx := kw.hslice_val.map (idx_from_val (cropV v_axis e)),
          vslice_idx := kw.vslice_val.map (idx_from_val (cropH h_axis e)),
          cbar := kw.cbar, text := kw.text }
  | _, _ => .error "zero-size array to reduction operation"

/-- The stored-attribute part of `Plot2D.__init__` (lines 58-93). -/
def Plot2D.init (arr2d : Mat) (h_axis v_axis : List ℚ) (kw : Kwargs) :
    Except String Plot2DState :=
  match resolveExtent h_axis v_axis kw with
  | .ok e => Plot2D.initCore arr2d h_axis v_axis e kw
  | .error msg => .error msg

/-- The main pseudocolor panel: what `Plot2D.main_panel` (lines 134-148)
passes to `imshow` — the cropped data, the extent, the colormap
(`kwargs.get("cmap", "viridis")`), the normalization and the color-scale
bounds `vmin`/`vmax`. -/
structure MainPanel where
  data : Mat
  extent : ℚ × ℚ × ℚ × ℚ
  cmap : String
  norm : Option String
  vmin : ℚ
  vmax : ℚ
deriving DecidableEq, Repr

/-- The upper horizontal-slice sub-panel `axh` (created with
`sharex=self.ax0`): it plots the cropped `h_axis` against the data row at
`hslice_idx` with `set_ylim(vmin, vmax)`. -/
structure HPanel where
  sharex : Bool
  xs : List ℚ
  ys : List ℚ
  style : SliceStyle
  lim_lo : ℚ
  lim_hi : ℚ
deriving DecidableEq, Repr

/-- The right vertical-slice sub-panel `axv` (created with
`sharey=self.ax0`): it plots the data column at `vslice_idx` against the
cropped `v_axis` with `set_xlim(vmin, vmax)`. -/
structure VPanel where
  sharey : Bool
  xs : List ℚ
  ys : List ℚ
  style : SliceStyle
  lim_lo : ℚ
  lim_hi : ℚ
deriving DecidableEq, Repr

/-- An in-panel numeric label placed by `ax0.annotate`: the slice
coordinate it formats, its data-coordinate position `xy`, its color, and
whether it is rotated vertically. -/
structure Annot where
  value : ℚ
  x : ℚ
  y : ℚ
  color : String
  vertical : Bool
deriving DecidableEq, Repr

/-- The composed figure `draw_fig` builds: the main panel (always), the
optional slice sub-panels, the slice reference lines drawn by
`axhline`/`axvline`, the slice annotations, the corner text and the
colorbar flag. -/
structure Fig where
  main : MainPanel
  axh : Option HPanel
  axv : Option VPanel
  hline : Option (ℚ × SliceStyle)
  vline : Option (ℚ × SliceStyle)
  hannot : Option Annot
  vannot : Option Annot
  corner_text : String
  cbar : Bool
deriving DecidableEq, Repr

/-- The four panel arrangements of `draw_fig`. -/
inductive Layout where
  | single
  | withH
  | withV
  | withBoth
deriving DecidableEq, Repr

/-- Which of the four arrangements a figure exhibits. -/
def Fig.layout (f : Fig) : Layout :=
  match f.axh, f.axv with
  | none, none => .single
  | some _, none => .withH
  | none, some _ => .withV
  | some _, some _ => .withBoth

/-- `Plot2D.main_panel` (lines 134-148): `imshow` of the stored data over
the stored extent with the stored color settings. -/
def Plot2D.main_panel (s : Plot2DState) (kw : Kwargs) : MainPanel :=
  { data := s.data, extent := s.extent, cmap := kw.cmap.getD "viridis",
    norm := s.norm, vmin := s.vmin, vmax := s.vmax }

/-- `Plot2D.draw_fig` (lines 150-297).  The branch on
`(hslice_idx is None, vslice_idx is None)` selects one of four layouts; the
slice branches perform the source's axis/data indexing
(`v_axis[hslice_idx]`, `h_axis[3]`, `v_axis[hslice_idx + 3]`,
`data[hslice_idx, :]`, `h_axis[vslice_idx]`, `h_axis[vslice_idx - 40]`,
`v_axis[-40]`, `data[:, vslice_idx]`), any of which can raise an
`IndexError` under numpy's indexing rules. -/
def Plot2D.draw_fig (s : Plot2DState) (kw : Kwargs) : Except String Fig :=
  match s.hslice_idx, s.vslice_idx with
  | none, none =>
    .ok { main := Plot2D.main_panel s kw, axh := none, axv := none,
          hline := none, vline := none, hannot := none, vannot := none,
          corner_text := s.text, cbar := s.cbar }
  | some hidx, none =>
    match pyIdxE s.v_axis (hidx : Int), pyIdxE s.h_axis 3,
        pyIdxE s.v_axis ((hidx : Int) + 3), npRow s.data hidx with
    | .ok y, .ok ax, .ok ay, .ok row =>
      .ok { main := Plot2D.main_panel s kw,
            axh := some { sharex := true, xs := s.h_axis, ys := row,
                          style := SliceStyle.update slice_opts_default kw.hslice_opts, lim_lo := s.vmin, lim_hi := s.vmax },
            axv := none,
            hline := some (y, SliceStyle.update slice_opts_default kw.hslice_opts), vline := none,
            hannot := some { value := y, x := ax, y := ay,
                             color := (SliceStyle.update slice_opts_default kw.hslice_opts).color, vertical := false },
            vannot := none, corner_text := s.text, cbar := s.cbar }
    | _, _, _, _ => .error "IndexError"
  | none, some vidx =>
    match pyIdxE s.h_axis (vidx : Int), pyIdxE s.h_axis ((vidx : Int) - 40),
        pyIdxE s.v_axis (-40), npCol s.data vidx with
    | .ok x, .ok ax, .ok ay, .ok col =>
      .ok { main := Plot2D.main_panel s kw,
            axh := none,
            axv := some { sharey := true, xs := col, ys := s.v_axis,
                          style := SliceStyle.update slice_opts_default kw.vslice_opts, lim_lo := s.vmin, lim_hi := s.vmax },
            hline := none, vline := some (x, SliceStyle.update slice_opts_default kw.vslice_opts),
            hannot := none,
            vannot := some { value := x, x := ax, y := ay,
                             color := (SliceStyle.update slice_opts_default kw.vslice_opts).color, vertical := true },
            corner_text := s.text, cbar := s.cbar }
    | _, _, _, _ => .error "IndexError"
  | some hidx, some vidx =>
    match pyIdxE s.v_axis (hidx : Int), pyIdxE s.h_axis (vidx : Int),
        pyIdxE s.h_axis 3, pyIdxE s.v_axis ((hidx : Int) + 3),
        pyIdxE s.h_axis ((vidx : Int) - 40), pyIdxE s.v_axis (-40),
        npRow s.data hidx, npCol s.data vidx with
    | .ok y, .ok x, .ok hax, .ok hay, .ok vax, .ok vay, .ok row, .ok col =>
      .ok { main := Plot2D.main_panel s kw,
            axh := some { sharex := true, xs := s.h_axis, ys := row,
                          style := SliceStyle.update slice_opts_default kw.hslice_opts, lim_lo := s.vmin, lim_hi := s.vmax },
            axv := some { sharey := true, xs := col, ys := s.v_axis,
                          style := SliceStyle.update slice_opts_default kw.vslice_opts, lim_lo := s.vmin, lim_hi := s.vmax },
            hline := some (y, SliceStyle.update slice_opts_default kw.hslice_opts), vline := some (x, SliceStyle.update slice_opts_default kw.vslice_opts),
            hannot := some { value := y, x := hax, y := hay,
                             color := (SliceStyle.update slice_opts_default kw.hslice_opts).color, vertical := false },
            vannot := some { value := x, x := vax, y := vay,
                             color := (SliceStyle.update slice_opts_default kw.vslice_opts).color, vertical := true },
            corner_text := s.text, cbar := s.cbar }
    | _, _, _, _, _, _, _, _ => .error "IndexError"

/-- The whole of `Plot2D.__init__`: store the attributes, then call
`draw_fig` (line 108); construction raises iff either part raises. -/
def Plot2D.construct (arr2d : Mat) (h_axis v_axis : List ℚ) (kw : Kwargs) :
    Except String Fig :=
  match Plot2D.init arr2d h_axis v_axis kw with
  | .ok s => Plot2D.draw_fig s kw
  | .error msg => .error msg

/-! ### Properties of the running first-minimum fold behind `idx_from_val` -/

/-- The fold never increases the tracked minimum value. -/
lemma foldl_argStep_le (f : Nat → ℚ) :
    ∀ (l : List Nat) (b : Nat), f (l.foldl (argStep f) b) ≤ f b := by
  intro l
  induction l with
  | nil => intro b; simp
  | cons i is ih =>
    intro b
    have h1 : f (is.foldl (argStep f) (argStep f b i)) ≤ f (argStep f b i) := ih _
    have h2 : f (argStep f b i) ≤ f b := by
      unfold argStep
      split
      · exact le_of_lt (by assumption)
      · exact le_rfl
    simpa [List.foldl_cons] using h1.trans h2

/-- The fold's result is at least as good as every processed index. -/
lemma foldl_argStep_min (f : Nat → ℚ) :
    ∀ (l : List Nat) (b : Nat) (j : Nat), j ∈ l →
      f (l.foldl (argStep f) b) ≤ f j := by
  intro l
  induction l with
  | nil => intro b j hj; cases hj
  | cons i is ih =>
    intro b j hj
    rcases List.mem_cons.1 hj with rfl | hj
    · have h1 : f (is.foldl (argStep f) (argStep f b j)) ≤ f (argStep f b j) :=
        foldl_argStep_le f is _
      have h2 : f (argStep f b j) ≤ f j := by
        unfold argStep
        split
        · exact le_rfl
        · exact le_of_not_lt (by assumption)
      simpa [List.foldl_cons] using h1.trans h2
    · simpa [List.foldl_cons] using ih (argStep f b i) j hj

/-- The fold's result is either the start or a processed index. -/
lemma foldl_argStep_lt (f : Nat → ℚ) (n : Nat) :
    ∀ (l : List Nat) (b : Nat), b < n → (∀ i ∈ l, i < n) →
      l.foldl (argStep f) b < n := by
  intro l
  induction l with
  | nil => intro b hb _; simpa using hb
  | cons i is ih =>
    intro b hb hl
    have hstep : argStep f b i < n := by
      unfold argStep
      split
      · exact hl i (List.mem_cons_self i is)
      · exact hb
    simpa [List.foldl_cons] using
      ih (argStep f b i) hstep (fun j hj => hl j (List.mem_cons_of_mem i hj))

/-- `qabs` agrees with the lattice absolute value. -/
lemma qabs_eq_abs (x : ℚ) : qabs x = |x| := by
  unfold qabs
  rcases lt_or_le x 0 with h | h
  · rw [if_pos h, abs_of_neg h]
  · rw [if_neg (not_lt.2 h), abs_of_nonneg h]

/-! ### Properties of `idx_from_val` -/

/-- On the empty axis the lookup returns index 0. -/
lemma idx_from_val_nil (val : ℚ) : idx_from_val [] val = 0 := rfl

/-- On a non-empty axis the lookup returns a valid index. -/
lemma idx_from_val_lt_length (arr1d : List ℚ) (val : ℚ) (h : arr1d ≠ []) :
    idx_from_val arr1d val < arr1d.length := by
  have hpos : 0 < arr1d.length := List.length_pos.2 h
  have := foldl_argStep_lt (fun i => qabs (arr1d.getD i 0 - val)) arr1d.length
    (List.range arr1d.length) 0 hpos (fun i hi => List.mem_range.1 hi)
  simpa [idx_from_val] using this

/-- No index is strictly closer to the target than the returned one. -/
lemma idx_from_val_min (arr1d : List ℚ) (val : ℚ) (j : Nat) (hj : j < arr1d.length) :
    |arr1d.getD (idx_from_val arr1d val) 0 - val| ≤ |arr1d.getD j 0 - val| := by
  have := foldl_argStep_min (fun i => qabs (arr1d.getD i 0 - val))
    (List.range arr1d.length) 0 j (List.mem_range.2 hj)
  simpa [idx_from_val, qabs_eq_abs] using this

/-- The lookup finds a strict unique minimizer of the distance. -/
lemma idx_from_val_eq_of_strict (arr1d : List ℚ) (val : ℚ) (k : Nat)
    (hk : k < arr1d.length)
    (hmin : ∀ j, j < arr1d.length → j ≠ k →
      |arr1d.getD k 0 - val| < |arr1d.getD j 0 - val|) :
    idx_from_val arr1d val = k := by
  by_contra hne
  have hlt : idx_from_val arr1d val < arr1d.length :=
    idx_from_val_lt_length arr1d val (by rintro rfl; simp at hk)
  have h1 := idx_from_val_min arr1d val k hk
  have h2 := hmin _ hlt hne
  exact absurd (h1.trans_lt h2) (lt_irrefl _)

/-- Clamping above: on a strictly increasing axis whose values all lie
below the target, the lookup returns the last index. -/
lemma idx_from_val_clamp_top (arr1d : List ℚ) (val : ℚ)
    (hmono : ∀ j, j < arr1d.length → ∀ i, i < j → arr1d.getD i 0 < arr1d.getD j 0)
    (hbelow : ∀ x ∈ arr1d, x < val) :
    idx_from_val arr1d val = arr1d.length - 1 := by
  rcases eq_or_ne arr1d [] with rfl | hne
  · simp [idx_from_val_nil]
  have hpos : 0 < arr1d.length := List.length_pos.2 hne
  refine idx_from_val_eq_of_strict _ _ _ (by omega) ?_
  intro j hj hjne
  have hjlt : j < arr1d.length - 1 := by omega
  have hmem : ∀ i, i < arr1d.length → arr1d.getD i 0 ∈ arr1d := by
    intro i hi
    rw [List.getD_eq_getElem _ _ hi]
    exact List.getElem_mem hi
  have hjv : arr1d.getD j 0 < val := hbelow _ (hmem j hj)
  have hkv : arr1d.getD (arr1d.length - 1) 0 < val :=
    hbelow _ (hmem _ (by omega))
  have hij : arr1d.getD j 0 < arr1d.getD (arr1d.length - 1) 0 :=
    hmono _ (by omega) _ hjlt
  rw [abs_of_neg (by linarith), abs_of_neg (by linarith)]
  linarith

/-- Clamping below: on a strictly increasing axis whose values all lie
above the target, the lookup returns index 0. -/
lemma idx_from_val_clamp_bot (arr1d : List ℚ) (val : ℚ)
    (hmono : ∀ j, j < arr1d.length → ∀ i, i < j → arr1d.getD i 0 < arr1d.getD j 0)
    (habove : ∀ x ∈ arr1d, val < x) :
    idx_from_val arr1d val = 0 := by
  rcases eq_or_ne arr1d [] with rfl | hne
  · simp [idx_from_val_nil]
  have hpos : 0 < arr1d.length := List.length_pos.2 hne
  refine idx_from_val_eq_of_strict _ _ _ hpos ?_
  intro j hj hjne
  have hmem : ∀ i, i < arr1d.length → arr1d.getD i 0 ∈ arr1d := by
    intro i hi
    rw [List.getD_eq_getElem _ _ hi]
    exact List.getElem_mem hi
  have h0v : val < arr1d.getD 0 0 := habove _ (hmem 0 hpos)
  have hjv : val < arr1d.getD j 0 := habove _ (hmem j hj)
  have h0j : arr1d.getD 0 0 < arr1d.getD j 0 :=
    hmono _ hj _ (Nat.pos_of_ne_zero hjne)
  rw [abs_of_pos (by linarith), abs_of_pos (by linarith)]
  linarith

/-- An exact hit on a strictly increasing axis: looking up the first
element returns index 0. -/
lemma idx_from_val_head (arr1d : List ℚ)
    (hmono : ∀ j, j < arr1d.length → ∀ i, i < j → arr1d.getD i 0 < arr1d.getD j 0)
    (hne : arr1d ≠ []) :
    idx_from_val arr1d (arr1d.getD 0 0) = 0 := by
  have hpos : 0 < arr1d.length := List.length_pos.2 hne
  refine idx_from_val_eq_of_strict _ _ _ hpos ?_
  intro j hj hjne
  have h0j : arr1d.getD 0 0 < arr1d.getD j 0 :=
    hmono _ hj _ (Nat.pos_of_ne_zero hjne)
  rw [sub_self, abs_zero, abs_of_pos (by linarith)]
  linarith

/-- An exact hit on a strictly increasing axis: looking up the last
element returns the last index. -/
lemma idx_from_val_last (arr1d : List ℚ)
    (hmono : ∀ j, j < arr1d.length → ∀ i, i < j → arr1d.getD i 0 < arr1d.getD j 0)
    (hne : arr1d ≠ []) :
    idx_from_val arr1d (arr1d.getD (arr1d.length - 1) 0) = arr1d.length - 1 := by
  have hpos : 0 < arr1d.length := List.length_pos.2 hne
  refine idx_from_val_eq_of_strict _ _ _ (by omega) ?_
  intro j hj hjne
  have hij : arr1d.getD j 0 < arr1d.getD (arr1d.length - 1) 0 :=
    hmono _ (by omega) _ (by omega)
  rw [sub_self, abs_zero, abs_of_neg (by linarith)]
  linarith

/-! ### Properties of the numpy reductions -/

/-- A `min`-fold lands on an element of the list. -/
lemma foldl_min_mem : ∀ (xs : List ℚ) (x : ℚ), xs.foldl min x ∈ x :: xs := by
  intro xs
  induction xs with
  | nil => intro x; simp
  | cons y ys ih =>
    intro x
    rw [List.foldl_cons]
    rcases List.mem_cons.1 (ih (min x y)) with h1 | h1
    · rcases le_total x y with hxy | hxy
      · rw [h1, min_eq_left hxy]; exact List.mem_cons_self _ _
      · rw [h1, min_eq_right hxy]
        exact List.mem_cons.2 (Or.inr (List.mem_cons_self _ _))
    · exact List.mem_cons.2 (Or.inr (List.mem_cons.2 (Or.inr h1)))

/-- A `min`-fold is a lower bound of the start and all elements. -/
lemma foldl_min_le : ∀ (xs : List ℚ) (x : ℚ), ∀ y ∈ x :: xs, xs.foldl min x ≤ y := by
  intro xs
  induction xs with
  | nil =>
    intro x y hy
    rcases List.mem_cons.1 hy with rfl | hy
    · exact le_rfl
    · cases hy
  | cons z zs ih =>
    intro x y hy
    rw [List.foldl_cons]
    have hmin : zs.foldl min (min x z) ≤ min x z :=
      ih (min x z) _ (List.mem_cons_self _ _)
    rcases List.mem_cons.1 hy with rfl | hy
    · exact hmin.trans (min_le_left _ _)
    · rcases List.mem_cons.1 hy with rfl | hy
      · exact hmin.trans (min_le_right _ _)
      · exact ih (min x z) _ (List.mem_cons.2 (Or.inr hy))

/-- A `max`-fold lands on an element of the list. -/
lemma foldl_max_mem : ∀ (xs : List ℚ) (x : ℚ), xs.foldl max x ∈ x :: xs := by
  intro xs
  induction xs with
  | nil => intro x; simp
  | cons y ys ih =>
    intro x
    rw [List.foldl_cons]
    rcases List.mem_cons.1 (ih (max x y)) with h1 | h1
    · rcases le_total x y with hxy | hxy
      · rw [h1, max_eq_right hxy]
        exact List.mem_cons.2 (Or.inr (List.mem_cons_self _ _))
      · rw [h1, max_eq_left hxy]; exact List.mem_cons_self _ _
    · exact List.mem_cons.2 (Or.inr (List.mem_cons.2 (Or.inr h1)))

/-- A `max`-fold is an upper bound of the start and all elements. -/
lemma foldl_max_ge : ∀ (xs : List ℚ) (x : ℚ), ∀ y ∈ x :: xs, y ≤ xs.foldl max x := by
  intro xs
  induction xs with
  | nil =>
    intro x y hy
    rcases List.mem_cons.1 hy with rfl | hy
    · exact le_rfl
    · cases hy
  | cons z zs ih =>
    intro x y hy
    rw [List.foldl_cons]
    have hmax : max x z ≤ zs.foldl max (max x z) :=
      ih (max x z) _ (List.mem_cons_self _ _)
    rcases List.mem_cons.1 hy with rfl | hy
    · exact (le_max_left _ _).trans hmax
    · rcases List.mem_cons.1 hy with rfl | hy
      · exact (le_max_right _ _).trans hmax
      · exact ih (max x z) _ (List.mem_cons.2 (Or.inr hy))

/-- `np.min` of a non-empty array is an element and a lower bound. -/
lemma npMin_ok (l : List ℚ) (m : ℚ) (h : npMin l = .ok m) :
    m ∈ l ∧ ∀ y ∈ l, m ≤ y := by
  cases l with
  | nil => simp [npMin] at h
  | cons x xs =>
    simp only [npMin, Except.ok.injEq] at h
    subst h
    exact ⟨foldl_min_mem xs x, foldl_min_le xs x⟩

/-- `np.max` of a non-empty array is an element and an upper bound. -/
lemma npMax_ok (l : List ℚ) (m : ℚ) (h : npMax l = .ok m) :
    m ∈ l ∧ ∀ y ∈ l, y ≤ m := by
  cases l with
  | nil => simp [npMax] at h
  | cons x xs =>
    simp only [npMax, Except.ok.injEq] at h
    subst h
    exact ⟨foldl_max_mem xs x, foldl_max_ge xs x⟩

/-- `npMin` succeeds exactly on the non-empty arrays. -/
lemma npMin_ne_nil (l : List ℚ) (m : ℚ) (h : npMin l = .ok m) : l ≠ [] := by
  rintro rfl; simp [npMin] at h

/-- On a strictly increasing axis a lower bound that is an element is the
head. -/
lemma mono_min_unique (l : List ℚ)
    (hmono : ∀ j, j < l.length → ∀ i, i < j → l.getD i 0 < l.getD j 0)
    (m : ℚ) (hm : m ∈ l) (hlb : ∀ y ∈ l, m ≤ y) : m = l.getD 0 0 := by
  rcases List.mem_iff_getElem.1 hm with ⟨j, hj, hjm⟩
  rcases Nat.eq_zero_or_pos j with rfl | hjpos
  · rw [← hjm, List.getD_eq_getElem _ _ hj]
  · have h0 : l.getD 0 0 < l.getD j 0 := hmono j hj 0 hjpos
    have hmem0 : l.getD 0 0 ∈ l := by
      rw [List.getD_eq_getElem _ _ (by omega)]
      exact List.getElem_mem _
    have hle := hlb _ hmem0
    rw [List.getD_eq_getElem _ _ hj, hjm] at h0
    linarith

/-- On a strictly increasing axis an upper bound that is an element is the
last element. -/
lemma mono_max_unique (l : List ℚ)
    (hmono : ∀ j, j < l.length → ∀ i, i < j → l.getD i 0 < l.getD j 0)
    (m : ℚ) (hm : m ∈ l) (hub : ∀ y ∈ l, y ≤ m) : m = l.getD (l.length - 1) 0 := by
  rcases List.mem_iff_getElem.1 hm with ⟨j, hj, hjm⟩
  rcases eq_or_lt_of_le (show j ≤ l.length - 1 by omega) with hlast | hjlt
  · subst hlast
    rw [← hjm, List.getD_eq_getElem _ _ hj]
  · have hL : l.getD j 0 < l.getD (l.length - 1) 0 := hmono _ (by omega) _ hjlt
    have hmemL : l.getD (l.length - 1) 0 ∈ l := by
      rw [List.getD_eq_getElem _ _ (by omega)]
      exact List.getElem_mem _
    have hle := hub _ hmemL
    rw [List.getD_eq_getElem _ _ hj, hjm] at hL
    linarith

/-- On a strictly increasing non-empty axis, `np.min` is the head. -/
lemma npMin_mono (l : List ℚ)
    (hmono : ∀ j, j < l.length → ∀ i, i < j → l.getD i 0 < l.getD j 0)
    (hne : l ≠ []) : npMin l = .ok (l.getD 0 0) := by
  cases hm : npMin l with
  | error msg =>
    cases l with
    | nil => exact absurd rfl hne
    | cons x xs => simp [npMin] at hm
  | ok m =>
    rcases npMin_ok l m hm with ⟨hmem, hlb⟩
    rw [mono_min_unique l hmono m hmem hlb]

/-- On a strictly increasing non-empty axis, `np.max` is the last element. -/
lemma npMax_mono (l : List ℚ)
    (hmono : ∀ j, j < l.length → ∀ i, i < j → l.getD i 0 < l.getD j 0)
    (hne : l ≠ []) : npMax l = .ok (l.getD (l.length - 1) 0) := by
  cases hm : npMax l with
  | error msg =>
    cases l with
    | nil => exact absurd rfl hne
    | cons x xs => simp [npMax] at hm
  | ok m =>
    rcases npMax_ok l m hm with ⟨hmem, hub⟩
    rw [mono_max_unique l hmono m hmem hub]

/-! ### Properties of Python slicing -/

/-- Length of `l[a:b]`. -/
lemma pySlice_length (l : List α) (a b : Nat) :
    (pySlice l a b).length = min b l.length - a := by
  simp [pySlice]

/-- Slicing keeps only elements of the list. -/
lemma pySlice_subset (l : List α) (a b : Nat) :
    ∀ x ∈ pySlice l a b, x ∈ l := by
  intro x hx
  exact List.mem_of_mem_take (List.mem_of_mem_drop hx)

/-- `l[0 : len - 1]` drops exactly the last element. -/
lemma pySlice_init (l : List α) :
    pySlice l 0 (l.length - 1) = l.dropLast := by
  simp [pySlice, List.dropLast_eq_take]

/-- A slice is non-empty exactly when its window is. -/
lemma pySlice_ne_nil (l : List α) (a b : Nat) (h : pySlice l a b ≠ []) :
    a < b ∧ a < l.length := by
  have := List.length_pos.2 h
  rw [pySlice_length] at this
  omega

/-! ### Unpacking a successful construction -/

/-- What a successful `initCore` stores, field by field. -/
lemma initCore_ok (arr2d : Mat) (h_axis v_axis : List ℚ)
    (e : ℚ × ℚ × ℚ × ℚ) (kw : Kwargs) (s : Plot2DState)
    (hok : Plot2D.initCore arr2d h_axis v_axis e kw = .ok s) :
    s.extent = e ∧
    s.data = cropData arr2d h_axis v_axis e ∧
    s.h_axis = cropH h_axis e ∧
    s.v_axis = cropV v_axis e ∧
    npAmin s.data = .ok s.min_data ∧
    npAmax s.data = .ok s.max_data ∧
    s.vmin = kw.vmin.getD s.min_data ∧
    s.vmax = kw.vmax.getD s.max_data ∧
    s.hslice_idx = kw.hslice_val.map (idx_from_val s.v_axis) ∧
    s.vslice_idx = kw.vslice_val.map (idx_from_val s.h_axis) ∧
    s.norm = kw.norm ∧ s.cbar = kw.cbar ∧ s.text = kw.text := by
  unfold Plot2D.initCore at hok
  cases hmn : npAmin (cropData arr2d h_axis v_axis e) with
  | error msg => rw [hmn] at hok; cases hok
  | ok mn =>
    cases hmx : npAmax (cropData arr2d h_axis v_axis e) with
    | error msg => rw [hmn, hmx] at hok; cases hok
    | ok mx =>
      rw [hmn, hmx, Except.ok.injEq] at hok
      subst hok
      refine ⟨rfl, rfl, rfl, rfl, hmn, hmx, rfl, rfl, rfl, rfl, rfl, rfl, rfl⟩

/-- A successful `Plot2D.init` factors through a resolved extent. -/
lemma init_ok (arr2d : Mat) (h_axis v_axis : List ℚ) (kw : Kwargs) (s : Plot2DState)
    (hok : Plot2D.init arr2d h_axis v_axis kw = .ok s) :
    ∃ e, resolveExtent h_axis v_axis kw = .ok e ∧
      Plot2D.initCore arr2d h_axis v_axis e kw = .ok s := by
  unfold Plot2D.init at hok
  cases he : resolveExtent h_axis v_axis kw with
  | error msg => rw [he] at hok; cases hok
  | ok e => rw [he] at hok; exact ⟨e, rfl, hok⟩

/-- A successful construction has non-empty cropped data, hence non-empty
cropped axes; the slice-index window is strictly ordered on both axes. -/
lemma init_axes_pos (arr2d : Mat) (h_axis v_axis : List ℚ) (kw : Kwargs)
    (s : Plot2DState) (hok : Plot2D.init arr2d h_axis v_axis kw = .ok s) :
    0 < s.h_axis.length ∧ 0 < s.v_axis.length := by
  rcases init_ok _ _ _ _ _ hok with ⟨e, _, hcore⟩
  rcases initCore_ok _ _ _ _ _ _ hcore with
    ⟨_, hdata, hh, hv, hmn, _, _, _, _, _, _, _, _⟩
  have hflat : s.data.flatten ≠ [] := by
    intro hnil
    unfold npAmin npMin at hmn
    rw [hnil] at hmn
    cases hmn
  have hrow : ∃ r ∈ s.data, r ≠ [] := by
    by_contra hall
    push_neg at hall
    exact hflat (List.flatten_eq_nil_iff.2 hall)
  rcases hrow with ⟨r, hr, hrne⟩
  rw [hdata] at hr
  unfold cropData at hr
  rcases List.mem_map.1 hr with ⟨row, hrow2, hroweq⟩
  -- the outer (row) window is non-trivial
  have houter : idx_from_val v_axis e.2.2.1 < idx_from_val v_axis e.2.2.2 ∧
      idx_from_val v_axis e.2.2.1 < arr2d.length := by
    apply pySlice_ne_nil
    intro hnil
    rw [hnil] at hrow2
    cases hrow2
  -- the inner (column) window is non-trivial
  have hinner : idx_from_val h_axis e.1 < idx_from_val h_axis e.2.1 ∧
      idx_from_val h_axis e.1 < row.length := by
    apply pySlice_ne_nil
    rw [hroweq]
    exact hrne
  constructor
  · -- cropped h axis
    have hHne : h_axis ≠ [] := by
      rintro rfl
      have := hinner.1
      simp only [idx_from_val_nil] at this
      omega
    have hmax : idx_from_val h_axis e.2.1 < h_axis.length :=
      idx_from_val_lt_length _ _ hHne
    rw [hh]
    unfold cropH
    rw [pySlice_length]
    omega
  · -- cropped v axis
    have hVne : v_axis ≠ [] := by
      rintro rfl
      have := houter.1
      simp only [idx_from_val_nil] at this
      omega
    have hmax : idx_from_val v_axis e.2.2.2 < v_axis.length :=
      idx_from_val_lt_length _ _ hVne
    rw [hv]
    unfold cropV
    rw [pySlice_length]
    omega

/-- `Plot2D.init` is `initCore` at the resolved extent. -/
lemma init_eq_core (arr2d : Mat) (h_axis v_axis : List ℚ) (kw : Kwargs)
    (e : ℚ × ℚ × ℚ × ℚ) (hres : resolveExtent h_axis v_axis kw = .ok e) :
    Plot2D.init arr2d h_axis v_axis kw = Plot2D.initCore arr2d h_axis v_axis e kw := by
  unfold Plot2D.init
  rw [hres]

/-- Evaluating `initCore` when the cropped data has a minimum and a
maximum. -/
lemma initCore_eval (arr2d : Mat) (h_axis v_axis : List ℚ)
    (e : ℚ × ℚ × ℚ × ℚ) (kw : Kwargs) (mn mx : ℚ)
    (hmn : npAmin (cropData arr2d h_axis v_axis e) = .ok mn)
    (hmx : npAmax (cropData arr2d h_axis v_axis e) = .ok mx) :
    Plot2D.initCore arr2d h_axis v_axis e kw =
      .ok { extent := e, data := cropData arr2d h_axis v_axis e,
            min_data := mn, max_data := mx,
            vmin := kw.vmin.getD mn, vmax := kw.vmax.getD mx,
            h_axis := cropH h_axis e, v_axis := cropV v_axis e, norm := kw.norm,
            hslice_val := kw.hslice_val, vslice_val := kw.vslice_val,
            hslice_idx := kw.hslice_val.map (idx_from_val (cropV v_axis e)),
            vslice_idx := kw.vslice_val.map (idx_from_val (cropH h_axis e)),
            cbar := kw.cbar, text := kw.text } := by
  unfold Plot2D.initCore
  rw [hmn, hmx]

/-- `npAmin` succeeds on a matrix with a non-empty flattening. -/
lemma npAmin_of_ne_nil (m : Mat) (hne : m.flatten ≠ []) : ∃ mn, npAmin m = .ok mn := by
  rcases List.exists_cons_of_ne_nil hne with ⟨y, ys, hys⟩
  unfold npAmin npMin
  rw [hys]
  exact ⟨_, rfl⟩

/-- `npAmax` succeeds on a matrix with a non-empty flattening. -/
lemma npAmax_of_ne_nil (m : Mat) (hne : m.flatten ≠ []) : ∃ mx, npAmax m = .ok mx := by
  rcases List.exists_cons_of_ne_nil hne with ⟨y, ys, hys⟩
  unfold npAmax npMax
  rw [hys]
  exact ⟨_, rfl⟩

/-! ### The spec's concrete scenario and state extractors -/

/-- The scenario array: 4x4 with entry `row*4 + col`. -/
def arr2dS : Mat := [[0,1,2,3],[4,5,6,7],[8,9,10,11],[12,13,14,15]]

/-- The scenario axes `[0,1,2,3]`. -/
def axisS : List ℚ := [0,1,2,3]

/-- A placeholder state, used only to totalize `stateOf`. -/
def emptyState : Plot2DState :=
  { extent := (0, 0, 0, 0), data := [], min_data := 0, max_data := 0,
    vmin := 0, vmax := 0, h_axis := [], v_axis := [], norm := none,
    hslice_val := none, vslice_val := none, hslice_idx := none,
    vslice_idx := none, cbar := true, text := "" }

/-- The state of a successful construction (placeholder on failure). -/
def stateOf (x : Except String Plot2DState) : Plot2DState :=
  match x with
  | .ok s => s
  | .error _ => emptyState

/-- A placeholder figure, used only to totalize `figOf`. -/
def emptyFig : Fig :=
  { main := { data := [], extent := (0, 0, 0, 0), cmap := "viridis",
              norm := none, vmin := 0, vmax := 0 },
    axh := none, axv := none, hline := none, vline := none,
    hannot := none, vannot := none, corner_text := "", cbar := true }

/-- The figure of a successful draw (placeholder on failure). -/
def figOf (x : Except String Fig) : Fig :=
  match x with
  | .ok f => f
  | .error _ => emptyFig

/-! ### C1: cropping with a full-range extent -/

/-- C1 fails on the code: with the 4x4 scenario array, `hAxis = vAxis =
[0,1,2,3]` and no extent option, the stored data, axes and value bounds are
not the uncropped originals with `valueMax = 15` — the crop
`arr2d[ymin_idx:ymax_idx, xmin_idx:xmax_idx]` uses the nearest index of the
extent maximum as an exclusive Python slice bound, which drops the last row
and column. -/
theorem C1_counterexample :
    ¬ ((Plot2D.init arr2dS axisS axisS {}).toOption.map
        (fun s => (s.data, s.h_axis, s.v_axis, s.min_data, s.max_data))
      = some (arr2dS, axisS, axisS, 0, 15)) := by with_unfolding_all decide

/-- C1 (amended): for strictly increasing axes matching the array's
dimensions, constructing with extent equal to the full axis ranges
(explicitly, or by omitting the extent option) stores data, hAxis and vAxis
equal to the inputs with their last row/column/element dropped, because the
nearest index of the extent maximum is used as an exclusive slice bound; in
the 4x4 scenario `valueMin = 0` and `valueMax = 10`. -/
theorem C1_amended (arr2d : Mat) (h_axis v_axis : List ℚ) (kw : Kwargs)
    (hmono_h : ∀ j, j < h_axis.length → ∀ i, i < j → h_axis.getD i 0 < h_axis.getD j 0)
    (hmono_v : ∀ j, j < v_axis.length → ∀ i, i < j → v_axis.getD i 0 < v_axis.getD j 0)
    (hlen_h : 2 ≤ h_axis.length) (hlen_v : 2 ≤ v_axis.length)
    (hrows : arr2d.length = v_axis.length)
    (hcols : ∀ r ∈ arr2d, r.length = h_axis.length)
    (hext : kw.extent = none ∨
      kw.extent = some (h_axis.getD 0 0, h_axis.getD (h_axis.length - 1) 0,
                        v_axis.getD 0 0, v_axis.getD (v_axis.length - 1) 0)) :
    (Plot2D.init arr2d h_axis v_axis kw).toOption.map
        (fun s => (s.data, s.h_axis, s.v_axis))
      = some (arr2d.dropLast.map (fun r => r.dropLast),
              h_axis.dropLast, v_axis.dropLast) ∧
    (Plot2D.init arr2dS axisS axisS {}).toOption.map
        (fun s => (s.min_data, s.max_data)) = some (0, 10) := by
  have hne_h : h_axis ≠ [] := by
    intro h
    rw [h] at hlen_h
    simp at hlen_h
  have hne_v : v_axis ≠ [] := by
    intro h
    rw [h] at hlen_v
    simp at hlen_v
  constructor
  · have hres : resolveExtent h_axis v_axis kw =
        .ok (h_axis.getD 0 0, h_axis.getD (h_axis.length - 1) 0,
             v_axis.getD 0 0, v_axis.getD (v_axis.length - 1) 0) := by
      rcases hext with hnone | hsome
      · unfold resolveExtent
        rw [hnone, npMin_mono h_axis hmono_h hne_h, npMax_mono h_axis hmono_h hne_h,
          npMin_mono v_axis hmono_v hne_v, npMax_mono v_axis hmono_v hne_v]
      · unfold resolveExtent
        rw [hsome]
    have hxmin : idx_from_val h_axis (h_axis.getD 0 0) = 0 :=
      idx_from_val_head h_axis hmono_h hne_h
    have hxmax : idx_from_val h_axis (h_axis.getD (h_axis.length - 1) 0) =
        h_axis.length - 1 :=
      idx_from_val_last h_axis hmono_h hne_h
    have hymin : idx_from_val v_axis (v_axis.getD 0 0) = 0 :=
      idx_from_val_head v_axis hmono_v hne_v
    have hymax : idx_from_val v_axis (v_axis.getD (v_axis.length - 1) 0) =
        v_axis.length - 1 :=
      idx_from_val_last v_axis hmono_v hne_v
    have hcH : cropH h_axis (h_axis.getD 0 0, h_axis.getD (h_axis.length - 1) 0,
        v_axis.getD 0 0, v_axis.getD (v_axis.length - 1) 0) = h_axis.dropLast := by
      unfold cropH
      dsimp only
      rw [hxmin, hxmax, pySlice_init]
    have hcV : cropV v_axis (h_axis.getD 0 0, h_axis.getD (h_axis.length - 1) 0,
        v_axis.getD 0 0, v_axis.getD (v_axis.length - 1) 0) = v_axis.dropLast := by
      unfold cropV
      dsimp only
      rw [hymin, hymax, pySlice_init]
    have hcD : cropData arr2d h_axis v_axis
        (h_axis.getD 0 0, h_axis.getD (h_axis.length - 1) 0,
         v_axis.getD 0 0, v_axis.getD (v_axis.length - 1) 0)
        = arr2d.dropLast.map (fun r => r.dropLast) := by
      unfold cropData
      dsimp only
      rw [hxmin, hxmax, hymin, hymax, ← hrows, pySlice_init]
      refine List.map_congr_left ?_
      intro r hr
      have hrmem : r ∈ arr2d := (List.dropLast_sublist arr2d).subset hr
      rw [← hcols r hrmem, pySlice_init]
    have hflat : (cropData arr2d h_axis v_axis
        (h_axis.getD 0 0, h_axis.getD (h_axis.length - 1) 0,
         v_axis.getD 0 0, v_axis.getD (v_axis.length - 1) 0)).flatten ≠ [] := by
      rw [hcD]
      intro hnil
      have hlen0 : 0 < arr2d.dropLast.length := by
        rw [List.length_dropLast]
        omega
      rcases List.exists_mem_of_length_pos hlen0 with ⟨r0, hr0⟩
      have hr0mem : r0.dropLast ∈ arr2d.dropLast.map (fun r => r.dropLast) :=
        List.mem_map_of_mem _ hr0
      have := List.flatten_eq_nil_iff.1 hnil _ hr0mem
      have hr0len : r0.length = h_axis.length :=
        hcols r0 ((List.dropLast_sublist arr2d).subset hr0)
      have : r0.dropLast.length = 0 := by rw [this]; rfl
      rw [List.length_dropLast, hr0len] at this
      omega
    obtain ⟨mn, hmn⟩ := npAmin_of_ne_nil _ hflat
    obtain ⟨mx, hmx⟩ := npAmax_of_ne_nil _ hflat
    rw [init_eq_core arr2d h_axis v_axis kw _ hres,
      initCore_eval arr2d h_axis v_axis _ kw mn mx hmn hmx]
    simp only [Except.toOption, Option.map_some]
    rw [hcD, hcH, hcV]
    rfl
  · with_unfolding_all decide

/-- C1's amended theorem applied at the concrete scenario. -/
theorem C1_witness :
    (Plot2D.init arr2dS axisS axisS {}).toOption.map
        (fun s => (s.data, s.h_axis, s.v_axis))
      = some (arr2dS.dropLast.map (fun r => r.dropLast),
              axisS.dropLast, axisS.dropLast) :=
  (C1_amended arr2dS axisS axisS {} (by with_unfolding_all decide)
    (by with_unfolding_all decide) (by with_unfolding_all decide)
    (by with_unfolding_all decide) (by with_unfolding_all decide)
    (by with_unfolding_all decide) (Or.inl rfl)).1

/-! ### C2: out-of-range slice coordinates -/

/-- C2 fails on the code: with `hsliceVal = 100` on axis `[0,1,2,3]` the
stored slice index is 2, not 3 (the crop drops the final axis element,
leaving `[0,1,2]`), and construction raises an `IndexError` while drawing
the slice annotation, rather than completing without error. -/
theorem C2_counterexample :
    ¬ (((Plot2D.init arr2dS axisS axisS { hslice_val := some 100 }).toOption.map
          (fun s => s.hslice_idx) = some (some 3)) ∧
       (Plot2D.construct arr2dS axisS axisS { hslice_val := some 100 }).toOption.isSome
         = true) := by
  with_unfolding_all decide

/-- C2 (amended): a slice coordinate outside the cropped axis range is
resolved by clamping the index to the nearest boundary of the cropped axis
(index 0 or its last index), and index resolution itself never raises; but
in the scenario `hsliceVal = 100` on axis `[0,1,2,3]` the cropped axis is
`[0,1,2]`, so `hSliceIndex = 2`, and the subsequent drawing step raises an
`IndexError` from the annotation's out-of-bounds axis indexing. -/
theorem C2_amended (arr2d : Mat) (h_axis v_axis : List ℚ) (kw : Kwargs)
    (s : Plot2DState) (val : ℚ)
    (hok : Plot2D.init arr2d h_axis v_axis kw = .ok s)
    (hval : kw.hslice_val = some val)
    (hmono : ∀ j, j < s.v_axis.length → ∀ i, i < j →
      s.v_axis.getD i 0 < s.v_axis.getD j 0) :
    ((∀ x ∈ s.v_axis, x < val) → s.hslice_idx = some (s.v_axis.length - 1)) ∧
    ((∀ x ∈ s.v_axis, val < x) → s.hslice_idx = some 0) ∧
    (Plot2D.init arr2dS axisS axisS { hslice_val := some 100 }).toOption.map
        (fun t => t.hslice_idx) = some (some 2) ∧
    (Plot2D.construct arr2dS axisS axisS { hslice_val := some 100 }).toOption
      = none := by
  rcases init_ok _ _ _ _ _ hok with ⟨e, _, hcore⟩
  have hfields := initCore_ok _ _ _ _ _ _ hcore
  have hidx : s.hslice_idx = some (idx_from_val s.v_axis val) := by
    have h9 := hfields.2.2.2.2.2.2.2.2.1
    rw [hval] at h9
    simpa using h9
  refine ⟨?_, ?_, by with_unfolding_all decide, by with_unfolding_all decide⟩
  · intro hab
    rw [hidx, idx_from_val_clamp_top s.v_axis val hmono hab]
  · intro hbe
    rw [hidx, idx_from_val_clamp_bot s.v_axis val hmono hbe]

/-- The stored state of the out-of-range h-slice scenario. -/
def s2S : Plot2DState :=
  stateOf (Plot2D.init arr2dS axisS axisS { hslice_val := some 100 })

/-- C2's clamping theorem applied at the concrete scenario. -/
theorem C2_witness :
    s2S.hslice_idx = some (s2S.v_axis.length - 1) ∧
    (Plot2D.construct arr2dS axisS axisS { hslice_val := some 100 }).toOption
      = none := by
  have h := C2_amended arr2dS axisS axisS { hslice_val := some 100 } s2S 100
    (by with_unfolding_all rfl) rfl (by with_unfolding_all decide)
  exact ⟨h.1 (by with_unfolding_all decide), h.2.2.2⟩

/-! ### C3: input validation -/

/-- C3 fails on the code: constructing with a 4x4 array and an `hAxis` of
mismatched length 3 does not fail — no dimension validation exists, the
mismatched axis is silently cropped through, and a figure is produced. -/
theorem C3_counterexample :
    ¬ ((Plot2D.construct arr2dS [0, 1, 2] axisS {}).toOption = none) := by
  with_unfolding_all decide

/-- C3 (amended): construction performs no dimension validation — a
mismatched `hAxis`/`vAxis` silently proceeds and produces a figure; an
empty `arr2d` does make construction fail, but only with the error raised
by the min-reduction over the empty cropped array (or the empty-axis
extent default), not a precondition-identifying error. -/
theorem C3_amended (h_axis v_axis : List ℚ) (kw : Kwargs) :
    (Plot2D.construct arr2dS [0, 1, 2] axisS {}).toOption.isSome = true ∧
    (Plot2D.init [] h_axis v_axis kw).toOption = none := by
  refine ⟨by with_unfolding_all decide, ?_⟩
  cases he : resolveExtent h_axis v_axis kw with
  | error msg =>
    unfold Plot2D.init
    rw [he]
    rfl
  | ok e =>
    rw [init_eq_core [] h_axis v_axis kw e he]
    have hcd : cropData [] h_axis v_axis e = [] := by
      unfold cropData pySlice
      simp
    unfold Plot2D.initCore
    rw [hcd]
    rfl

/-! ### C4: default color-scale bounds -/

/-- C4 holds: when the `vmin`/`vmax` options are absent, the stored bounds
are exactly `np.amin`/`np.amax` of the cropped data (an element of and a
bound for the cropped data, not the uncropped input); a supplied option
overrides the corresponding bound independently. -/
theorem C4 (arr2d : Mat) (h_axis v_axis : List ℚ) (kw : Kwargs) (s : Plot2DState)
    (hok : Plot2D.init arr2d h_axis v_axis kw = .ok s) :
    (kw.vmin = none → npAmin s.data = .ok s.vmin ∧ s.vmin ∈ s.data.flatten ∧
        ∀ x ∈ s.data.flatten, s.vmin ≤ x) ∧
    (kw.vmax = none → npAmax s.data = .ok s.vmax ∧ s.vmax ∈ s.data.flatten ∧
        ∀ x ∈ s.data.flatten, x ≤ s.vmax) ∧
    (∀ a, kw.vmin = some a → s.vmin = a) ∧
    (∀ b, kw.vmax = some b → s.vmax = b) := by
  rcases init_ok _ _ _ _ _ hok with ⟨e, _, hcore⟩
  have hf := initCore_ok _ _ _ _ _ _ hcore
  have hmn := hf.2.2.2.2.1
  have hmx := hf.2.2.2.2.2.1
  have hvmin := hf.2.2.2.2.2.2.1
  have hvmax := hf.2.2.2.2.2.2.2.1
  refine ⟨?_, ?_, ?_, ?_⟩
  · intro hnone
    have hv : s.vmin = s.min_data := by rw [hvmin, hnone]; rfl
    obtain ⟨hmem, hlb⟩ := npMin_ok s.data.flatten s.min_data hmn
    rw [hv]
    exact ⟨hmn, hmem, hlb⟩
  · intro hnone
    have hv : s.vmax = s.max_data := by rw [hvmax, hnone]; rfl
    obtain ⟨hmem, hub⟩ := npMax_ok s.data.flatten s.max_data hmx
    rw [hv]
    exact ⟨hmx, hmem, hub⟩
  · intro a ha
    rw [hvmin, ha]
    rfl
  · intro b hb
    rw [hvmax, hb]
    rfl

/-- The stored state of the plain (no-option) scenario construction. -/
def s4S : Plot2DState := stateOf (Plot2D.init arr2dS axisS axisS {})

/-- C4 applied at the concrete scenario construction. -/
theorem C4_witness :
    npAmin s4S.data = .ok s4S.vmin ∧ s4S.vmin ∈ s4S.data.flatten ∧
      ∀ x ∈ s4S.data.flatten, s4S.vmin ≤ x :=
  (C4 arr2dS axisS axisS {} s4S (by with_unfolding_all rfl)).1 rfl

/-! ### C5: the four-way layout selection -/

/-- C5 holds: a drawn figure's layout is exactly determined by the presence
of the two slice indices — no slices give the single main panel, an h-slice
adds the upper sub-panel sharing the horizontal axis, a v-slice adds the
right sub-panel sharing the vertical axis, both add both — and the four
cases are mutually exclusive and exhaustive. -/
theorem C5 (s : Plot2DState) (kw : Kwargs) (fig : Fig)
    (hok : Plot2D.draw_fig s kw = .ok fig) :
    (fig.layout = .single ↔ s.hslice_idx = none ∧ s.vslice_idx = none) ∧
    (fig.layout = .withH ↔ s.hslice_idx.isSome = true ∧ s.vslice_idx = none) ∧
    (fig.layout = .withV ↔ s.hslice_idx = none ∧ s.vslice_idx.isSome = true) ∧
    (fig.layout = .withBoth ↔ s.hslice_idx.isSome = true ∧
      s.vslice_idx.isSome = true) ∧
    (∀ p ∈ fig.axh, p.sharex = true) ∧
    (∀ p ∈ fig.axv, p.sharey = true) ∧
    fig.axh.isSome = s.hslice_idx.isSome ∧
    fig.axv.isSome = s.vslice_idx.isSome := by
  cases hH : s.hslice_idx with
  | none =>
    cases hV : s.vslice_idx with
    | none =>
      simp only [Plot2D.draw_fig, hH, hV, Except.ok.injEq] at hok
      subst hok
      simp [Fig.layout, hH, hV]
    | some vidx =>
      simp only [Plot2D.draw_fig, hH, hV] at hok
      split at hok
      · simp only [Except.ok.injEq] at hok
        subst hok
        simp [Fig.layout, hH, hV]
      · cases hok
  | some hidx =>
    cases hV : s.vslice_idx with
    | none =>
      simp only [Plot2D.draw_fig, hH, hV] at hok
      split at hok
      · simp only [Except.ok.injEq] at hok
        subst hok
        simp [Fig.layout, hH, hV]
      · cases hok
    | some vidx =>
      simp only [Plot2D.draw_fig, hH, hV] at hok
      split at hok
      · simp only [Except.ok.injEq] at hok
        subst hok
        simp [Fig.layout, hH, hV]
      · cases hok

/-- The figure drawn for the plain scenario state. -/
def fig5S : Fig := figOf (Plot2D.draw_fig s4S {})

/-- C5 applied at the concrete no-slice scenario. -/
theorem C5_witness :
    fig5S.layout = Layout.single ↔ s4S.hslice_idx = none ∧ s4S.vslice_idx = none :=
  (C5 s4S {} fig5S (by with_unfolding_all rfl)).1

/-! ### C6: slice-index resolution against the cropped axes -/

/-- C6 holds: a supplied horizontal-slice coordinate is resolved by the
nearest-index lookup against the cropped `v_axis` (a row index), a
vertical-slice coordinate against the cropped `h_axis` (a column index)
— each minimizing the distance to the respective cropped axis values —
and every present slice index is a valid index into the corresponding
cropped axis. -/
theorem C6 (arr2d : Mat) (h_axis v_axis : List ℚ) (kw : Kwargs) (s : Plot2DState)
    (hok : Plot2D.init arr2d h_axis v_axis kw = .ok s) :
    (∀ val, kw.hslice_val = some val →
        s.hslice_idx = some (idx_from_val s.v_axis val) ∧
        ∀ j, j < s.v_axis.length →
          |s.v_axis.getD (idx_from_val s.v_axis val) 0 - val| ≤
            |s.v_axis.getD j 0 - val|) ∧
    (∀ val, kw.vslice_val = some val →
        s.vslice_idx = some (idx_from_val s.h_axis val) ∧
        ∀ j, j < s.h_axis.length →
          |s.h_axis.getD (idx_from_val s.h_axis val) 0 - val| ≤
            |s.h_axis.getD j 0 - val|) ∧
    (∀ i, s.hslice_idx = some i → i < s.v_axis.length) ∧
    (∀ i, s.vslice_idx = some i → i < s.h_axis.length) := by
  rcases init_ok _ _ _ _ _ hok with ⟨e, _, hcore⟩
  have hf := initCore_ok _ _ _ _ _ _ hcore
  have hhs := hf.2.2.2.2.2.2.2.2.1
  have hvs := hf.2.2.2.2.2.2.2.2.2.1
  have hpos := init_axes_pos _ _ _ _ _ hok
  have hhne : s.h_axis ≠ [] := List.length_pos.1 hpos.1
  have hvne : s.v_axis ≠ [] := List.length_pos.1 hpos.2
  refine ⟨?_, ?_, ?_, ?_⟩
  · intro val hv
    rw [hv] at hhs
    refine ⟨by simpa using hhs, ?_⟩
    intro j hj
    exact idx_from_val_min s.v_axis val j hj
  · intro val hv
    rw [hv] at hvs
    refine ⟨by simpa using hvs, ?_⟩
    intro j hj
    exact idx_from_val_min s.h_axis val j hj
  · intro i hi
    rw [hhs] at hi
    rcases Option.map_eq_some'.1 hi with ⟨val, hval, hfi⟩
    rw [← hfi]
    exact idx_from_val_lt_length s.v_axis val hvne
  · intro i hi
    rw [hvs] at hi
    rcases Option.map_eq_some'.1 hi with ⟨val, hval, hfi⟩
    rw [← hfi]
    exact idx_from_val_lt_length s.h_axis val hhne

/-- The scenario options with both slice coordinates. -/
def kw6 : Kwargs := { hslice_val := some 2, vslice_val := some 1 }

/-- The stored state of the two-slice scenario construction. -/
def s6S : Plot2DState := stateOf (Plot2D.init arr2dS axisS axisS kw6)

/-- C6 applied at the concrete two-slice scenario. -/
theorem C6_witness :
    s6S.hslice_idx = some (idx_from_val s6S.v_axis 2) ∧
      2 < s6S.v_axis.length := by
  have h := C6 arr2dS axisS axisS kw6 s6S (by with_unfolding_all rfl)
  exact ⟨(h.1 2 rfl).1, h.2.2.1 2 (by with_unfolding_all decide)⟩

/-! ### C7: degenerate crop windows -/

/-- C7 holds: when the resolved crop index window has zero or negative
extent on either axis, the cropped data is empty, the min-reduction on it
raises, and construction fails with an error — no state (hence no figure)
is produced. -/
theorem C7 (arr2d : Mat) (h_axis v_axis : List ℚ) (kw : Kwargs)
    (xmin xmax ymin ymax : ℚ)
    (hext : resolveExtent h_axis v_axis kw = .ok (xmin, xmax, ymin, ymax))
    (hdeg : idx_from_val h_axis xmax ≤ idx_from_val h_axis xmin ∨
            idx_from_val v_axis ymax ≤ idx_from_val v_axis ymin) :
    (Plot2D.init arr2d h_axis v_axis kw).toOption = none := by
  rw [init_eq_core arr2d h_axis v_axis kw _ hext]
  have hflat : (cropData arr2d h_axis v_axis (xmin, xmax, ymin, ymax)).flatten
      = [] := by
    rcases hdeg with hx | hy
    · apply List.flatten_eq_nil_iff.2
      intro r hr
      unfold cropData at hr
      dsimp only at hr
      rcases List.mem_map.1 hr with ⟨row, hrow, hre⟩
      rw [← hre]
      have hlen : (pySlice row (idx_from_val h_axis xmin)
          (idx_from_val h_axis xmax)).length = 0 := by
        rw [pySlice_length]
        omega
      exact List.eq_nil_of_length_eq_zero hlen
    · apply List.flatten_eq_nil_iff.2
      intro r hr
      unfold cropData at hr
      dsimp only at hr
      rcases List.mem_map.1 hr with ⟨row, hrow, hre⟩
      exfalso
      have hlen : (pySlice arr2d (idx_from_val v_axis ymin)
          (idx_from_val v_axis ymax)).length = 0 := by
        rw [pySlice_length]
        omega
      rw [List.eq_nil_of_length_eq_zero hlen] at hrow
      cases hrow
  have hmn : npAmin (cropData arr2d h_axis v_axis (xmin, xmax, ymin, ymax))
      = .error "zero-size array to reduction operation" := by
    unfold npAmin
    rw [hflat]
    rfl
  have hmx : npAmax (cropData arr2d h_axis v_axis (xmin, xmax, ymin, ymax))
      = .error "zero-size array to reduction operation" := by
    unfold npAmax
    rw [hflat]
    rfl
  unfold Plot2D.initCore
  rw [hmn, hmx]
  rfl

/-- A reversed (degenerate) horizontal extent for the scenario. -/
def kw7 : Kwargs := { extent := some (3, 0, 0, 3) }

/-- C7 applied at the concrete reversed-extent scenario. -/
theorem C7_witness :
    (Plot2D.init arr2dS axisS axisS kw7).toOption = none :=
  C7 arr2dS axisS axisS kw7 3 0 0 3 (by with_unfolding_all rfl)
    (Or.inl (by with_unfolding_all decide))

/-! ### C8: the data is never clamped by the color bounds -/

/-- C8 holds: the stored data is the crop of the caller's array — every
stored value is a value of the input array, unmodified — and it is
independent of the `vmin`/`vmax` options, which reach only the main
panel's rendering color range. -/
theorem C8 (arr2d : Mat) (h_axis v_axis : List ℚ) (kw : Kwargs) (a b : Option ℚ) :
    ((Plot2D.init arr2d h_axis v_axis { kw with vmin := a, vmax := b }).toOption.map
        (fun s => s.data)
      = (Plot2D.init arr2d h_axis v_axis kw).toOption.map (fun s => s.data)) ∧
    (∀ s, Plot2D.init arr2d h_axis v_axis kw = .ok s →
        s.data = cropData arr2d h_axis v_axis s.extent ∧
        ∀ x ∈ s.data.flatten, x ∈ arr2d.flatten) ∧
    (∀ s fig, Plot2D.draw_fig s kw = .ok fig →
        fig.main.data = s.data ∧ fig.main.vmin = s.vmin ∧
          fig.main.vmax = s.vmax) := by
  have hres : resolveExtent h_axis v_axis { kw with vmin := a, vmax := b } =
      resolveExtent h_axis v_axis kw := rfl
  refine ⟨?_, ?_, ?_⟩
  · cases he : resolveExtent h_axis v_axis kw with
    | error msg =>
      unfold Plot2D.init
      rw [hres, he]
    | ok e =>
      rw [init_eq_core _ _ _ _ e (hres.trans he), init_eq_core _ _ _ _ e he]
      unfold Plot2D.initCore
      cases hmn : npAmin (cropData arr2d h_axis v_axis e) with
      | error msg => rfl
      | ok mn =>
        cases hmx : npAmax (cropData arr2d h_axis v_axis e) with
        | error msg => rfl
        | ok mx => rfl
  · intro s hs
    rcases init_ok _ _ _ _ _ hs with ⟨e, _, hcore⟩
    have hf := initCore_ok _ _ _ _ _ _ hcore
    have hdata := hf.2.1
    have hextent := hf.1
    constructor
    · rw [hextent, hdata]
    · intro x hx
      rw [hdata] at hx
      unfold cropData at hx
      rcases List.mem_flatten.1 hx with ⟨r, hr, hxr⟩
      rcases List.mem_map.1 hr with ⟨row, hrow, hre⟩
      rw [← hre] at hxr
      have hxrow : x ∈ row := pySlice_subset _ _ _ x hxr
      have hrowmem : row ∈ arr2d := pySlice_subset _ _ _ row hrow
      exact List.mem_flatten.2 ⟨row, hrowmem, hxrow⟩
  · intro s fig hok
    cases hH : s.hslice_idx with
    | none =>
      cases hV : s.vslice_idx with
      | none =>
        simp only [Plot2D.draw_fig, hH, hV, Except.ok.injEq] at hok
        subst hok
        exact ⟨rfl, rfl, rfl⟩
      | some vidx =>
        simp only [Plot2D.draw_fig, hH, hV] at hok
        split at hok
        · simp only [Except.ok.injEq] at hok
          subst hok
          exact ⟨rfl, rfl, rfl⟩
        · cases hok
    | some hidx =>
      cases hV : s.vslice_idx with
      | none =>
        simp only [Plot2D.draw_fig, hH, hV] at hok
        split at hok
        · simp only [Except.ok.injEq] at hok
          subst hok
          exact ⟨rfl, rfl, rfl⟩
        · cases hok
      | some vidx =>
        simp only [Plot2D.draw_fig, hH, hV] at hok
        split at hok
        · simp only [Except.ok.injEq] at hok
          subst hok
          exact ⟨rfl, rfl, rfl⟩
        · cases hok

/-! ### C9: default slice-line colors -/

/-- A 41-point axis, long enough for the vertical-slice annotation's
`v_axis[-40]` lookup to succeed. -/
def qlist41 : List ℚ := (List.range 41).map (fun n => (n : ℚ))

/-- A state with only a horizontal slice at row 0 on short axes. -/
def s9h : Plot2DState :=
  { extent := (0, 3, 0, 3), data := [[1, 2, 3, 4]], min_data := 1, max_data := 4,
    vmin := 1, vmax := 4, h_axis := [0, 1, 2, 3], v_axis := [0, 1, 2, 3],
    norm := none, hslice_val := some 0, vslice_val := none,
    hslice_idx := some 0, vslice_idx := none, cbar := true, text := "" }

/-- A state with only a vertical slice at column 40 on 41-point axes. -/
def s9v : Plot2DState :=
  { extent := (0, 40, 0, 40), data := [qlist41], min_data := 0, max_data := 40,
    vmin := 0, vmax := 40, h_axis := qlist41, v_axis := qlist41, norm := none,
    hslice_val := none, vslice_val := some 40, hslice_idx := none,
    vslice_idx := some 40, cbar := true, text := "" }

/-- C9 fails on the code: with no slice-style options supplied, the
vertical slice line's default color equals the horizontal one — both are
"firebrick", copied from the same `slice_opts` dict — so the vertical
default is not a distinct color. -/
theorem C9_counterexample :
    (Plot2D.draw_fig s9h {}).toOption.map
        (fun f => f.hline.map (fun l => l.2.color)) = some (some "firebrick") ∧
    (Plot2D.draw_fig s9v {}).toOption.map
        (fun f => f.vline.map (fun l => l.2.color)) = some (some "firebrick") := by
  with_unfolding_all decide

/-- C9 (amended): both the horizontal and the vertical slice line carry
the same default style `{ls: "-", color: "firebrick", lw: 0.5}`; each is
overridable independently through the `hslice_opts` / `vslice_opts`
mappings. -/
theorem C9_amended (s : Plot2DState) (kw : Kwargs) (fig : Fig)
    (hok : Plot2D.draw_fig s kw = .ok fig) :
    (∀ l ∈ fig.hline, l.2 = SliceStyle.update slice_opts_default kw.hslice_opts) ∧
    (∀ l ∈ fig.vline, l.2 = SliceStyle.update slice_opts_default kw.vslice_opts) ∧
    (SliceStyle.update slice_opts_default {}).color = "firebrick" ∧
    (∀ u : SliceStyleUpdate, ∀ c, u.color = some c →
        (SliceStyle.update slice_opts_default u).color = c) := by
  have hlines : (∀ l ∈ fig.hline,
      l.2 = SliceStyle.update slice_opts_default kw.hslice_opts) ∧
      (∀ l ∈ fig.vline,
        l.2 = SliceStyle.update slice_opts_default kw.vslice_opts) := by
    cases hH : s.hslice_idx with
    | none =>
      cases hV : s.vslice_idx with
      | none =>
        simp only [Plot2D.draw_fig, hH, hV, Except.ok.injEq] at hok
        subst hok
        exact ⟨by simp, by simp⟩
      | some vidx =>
        simp only [Plot2D.draw_fig, hH, hV] at hok
        split at hok
        · simp only [Except.ok.injEq] at hok
          subst hok
          exact ⟨by simp, by simp⟩
        · cases hok
    | some hidx =>
      cases hV : s.vslice_idx with
      | none =>
        simp only [Plot2D.draw_fig, hH, hV] at hok
        split at hok
        · simp only [Except.ok.injEq] at hok
          subst hok
          exact ⟨by simp, by simp⟩
        · cases hok
      | some vidx =>
        simp only [Plot2D.draw_fig, hH, hV] at hok
        split at hok
        · simp only [Except.ok.injEq] at hok
          subst hok
          exact ⟨by simp, by simp⟩
        · cases hok
  refine ⟨hlines.1, hlines.2, rfl, ?_⟩
  intro u c hc
  unfold SliceStyle.update
  rw [hc]
  rfl

/-- C9's amended theorem applied at the concrete h-slice state. -/
theorem C9_witness :
    (figOf (Plot2D.draw_fig s9h {})).hline =
      some (0, SliceStyle.update slice_opts_default ({} : SliceStyleUpdate)) ∧
    (SliceStyle.update slice_opts_default {}).color = "firebrick" := by
  have h := C9_amended s9h {} (figOf (Plot2D.draw_fig s9h {}))
    (by with_unfolding_all rfl)
  exact ⟨by with_unfolding_all decide, h.2.2.1⟩

/-! ### C10: annotation indexing in `draw_fig` -/

/-- A non-negative index at or beyond the length is an `IndexError`. -/
lemma pyIdx_ge_none (l : List ℚ) (i : Int) (h0 : 0 ≤ i)
    (h : (l.length : Int) ≤ i) : pyIdx l i = none := by
  unfold pyIdx
  rw [if_pos h0, if_neg (by omega)]

/-- A negative index below `-len` is an `IndexError`. -/
lemma pyIdx_neg_none (l : List ℚ) (i : Int) (h0 : i < 0)
    (h : i < -(l.length : Int)) : pyIdx l i = none := by
  unfold pyIdx
  rw [if_neg (by omega), if_neg (by omega)]

/-- `l[-40]` wraps to position `len - 40` when the array is long enough. -/
lemma pyIdx_m40 (l : List ℚ) (h : 40 ≤ l.length) :
    pyIdx l (-40) = some (l.getD (l.length - 40) 0) := by
  unfold pyIdx
  rw [if_neg (by omega), if_pos (by omega)]
  have hidx : ((-40 : Int) + (l.length : Int)).toNat = l.length - 40 := by omega
  rw [hidx]

/-- `l[j - 40]` for `j < 40` wraps to position `len + j - 40` when the
array is long enough. -/
lemma pyIdx_sub40 (l : List ℚ) (j : Nat) (hj : j < 40) (h : 40 - j ≤ l.length) :
    pyIdx l ((j : Int) - 40) = some (l.getD (l.length + j - 40) 0) := by
  unfold pyIdx
  rw [if_neg (by omega), if_pos (by omega)]
  have hidx : ((j : Int) - 40 + (l.length : Int)).toNat = l.length + j - 40 := by
    omega
  rw [hidx]

/-- A failed lookup raises. -/
lemma pyIdxE_of_none (l : List ℚ) (i : Int) (h : pyIdx l i = none) :
    pyIdxE l i = .error "IndexError" := by
  unfold pyIdxE
  rw [h]

/-- A successful `pyIdxE` comes from a successful `pyIdx`. -/
lemma pyIdxE_ok (l : List ℚ) (i : Int) (x : ℚ) (h : pyIdxE l i = .ok x) :
    pyIdx l i = some x := by
  unfold pyIdxE at h
  cases hp : pyIdx l i with
  | none =>
    rw [hp] at h
    cases h
  | some y =>
    rw [hp] at h
    injection h with h
    rw [h]

/-- What a successful `l[j - 40]` lookup returns for `j < 40`. -/
lemma pyIdx_sub40_ok (l : List ℚ) (j : Nat) (x : ℚ) (hj : j < 40)
    (h : pyIdx l ((j : Int) - 40) = some x) :
    40 - j ≤ l.length ∧ x = l.getD (l.length + j - 40) 0 := by
  by_cases hlen : 40 - j ≤ l.length
  · rw [pyIdx_sub40 l j hj hlen] at h
    injection h with h
    exact ⟨hlen, h.symm⟩
  · rw [pyIdx_neg_none l ((j : Int) - 40) (by omega) (by omega)] at h
    cases h

/-- What a successful `l[-40]` lookup returns. -/
lemma pyIdx_m40_ok (l : List ℚ) (x : ℚ) (h : pyIdx l (-40) = some x) :
    40 ≤ l.length ∧ x = l.getD (l.length - 40) 0 := by
  by_cases hlen : 40 ≤ l.length
  · rw [pyIdx_m40 l hlen] at h
    injection h with h
    exact ⟨hlen, h.symm⟩
  · rw [pyIdx_neg_none l (-40) (by omega) (by omega)] at h
    cases h

/-- C10 holds: the vertical-slice annotation indexes `v_axis[-40]` and
`h_axis[vSliceIndex - 40]`, so a vertical slice on a cropped `v_axis` of
fewer than 40 elements makes drawing raise an `IndexError`; when drawing
succeeds with `vSliceIndex < 40` the annotation's horizontal position has
wrapped (Python negative indexing) to `h_axis[len + vSliceIndex - 40]`,
within 40 positions of the right edge, and its vertical position is
`v_axis[len - 40]`; a horizontal slice indexes `v_axis[hSliceIndex + 3]`
and `h_axis[3]`, raising when `hSliceIndex` is within 3 of the top of the
cropped `v_axis` or the cropped `h_axis` has fewer than 4 elements; and a
construction whose drawing raises, raises as a whole. -/
theorem C10 (s : Plot2DState) (kw : Kwargs) :
    (s.vslice_idx.isSome = true → s.v_axis.length < 40 →
        (Plot2D.draw_fig s kw).toOption = none) ∧
    (∀ fig j, Plot2D.draw_fig s kw = .ok fig → s.vslice_idx = some j → j < 40 →
        40 - j ≤ s.h_axis.length ∧
        ∀ an ∈ fig.vannot,
          an.x = s.h_axis.getD (s.h_axis.length + j - 40) 0 ∧
          an.y = s.v_axis.getD (s.v_axis.length - 40) 0) ∧
    (∀ i, s.hslice_idx = some i →
        s.v_axis.length ≤ i + 3 ∨ s.h_axis.length < 4 →
        (Plot2D.draw_fig s kw).toOption = none) ∧
    (∀ arr2d h_axis v_axis, Plot2D.init arr2d h_axis v_axis kw = .ok s →
        (Plot2D.construct arr2d h_axis v_axis kw).toOption =
          (Plot2D.draw_fig s kw).toOption) := by
  refine ⟨?_, ?_, ?_, ?_⟩
  · intro hvs hlen
    rcases Option.isSome_iff_exists.1 hvs with ⟨j, hj⟩
    have hay : pyIdxE s.v_axis (-40) = .error "IndexError" :=
      pyIdxE_of_none _ _ (pyIdx_neg_none _ _ (by omega) (by omega))
    cases hH : s.hslice_idx with
    | none =>
      simp only [Plot2D.draw_fig, hH, hj, hay]
      cases pyIdxE s.h_axis (j : Int) <;>
        cases pyIdxE s.h_axis ((j : Int) - 40) <;>
          cases npCol s.data j <;> rfl
    | some i =>
      simp only [Plot2D.draw_fig, hH, hj, hay]
      cases pyIdxE s.v_axis (i : Int) <;>
        cases pyIdxE s.h_axis (j : Int) <;>
          cases pyIdxE s.h_axis 3 <;>
            cases pyIdxE s.v_axis ((i : Int) + 3) <;>
              cases pyIdxE s.h_axis ((j : Int) - 40) <;>
                cases npRow s.data i <;>
                  cases npCol s.data j <;> rfl
  · intro fig j hok hj hj40
    cases hH : s.hslice_idx with
    | none =>
      simp only [Plot2D.draw_fig, hH, hj] at hok
      split at hok
      · rename_i x ax ay col e1 e2 e3 e4
        simp only [Except.ok.injEq] at hok
        subst hok
        have hax2 := pyIdx_sub40_ok s.h_axis j ax hj40 (pyIdxE_ok _ _ _ e2)
        have hay2 := pyIdx_m40_ok s.v_axis ay (pyIdxE_ok _ _ _ e3)
        refine ⟨hax2.1, ?_⟩
        intro an han
        simp only [Option.mem_def, Option.some.injEq] at han
        rw [← han]
        exact ⟨hax2.2, hay2.2⟩
      · cases hok
    | some i =>
      simp only [Plot2D.draw_fig, hH, hj] at hok
      split at hok
      · rename_i y x hax hay vax vay row col e1 e2 e3 e4 e5 e6 e7 e8
        simp only [Except.ok.injEq] at hok
        subst hok
        have hvax2 := pyIdx_sub40_ok s.h_axis j vax hj40 (pyIdxE_ok _ _ _ e5)
        have hvay2 := pyIdx_m40_ok s.v_axis vay (pyIdxE_ok _ _ _ e6)
        refine ⟨hvax2.1, ?_⟩
        intro an han
        simp only [Option.mem_def, Option.some.injEq] at han
        rw [← han]
        exact ⟨hvax2.2, hvay2.2⟩
      · cases hok
  · intro i hi hcond
    cases hV : s.vslice_idx with
    | none =>
      rcases hcond with hc | hc
      · have herr : pyIdxE s.v_axis ((i : Int) + 3) = .error "IndexError" :=
          pyIdxE_of_none _ _ (pyIdx_ge_none _ _ (by omega) (by omega))
        simp only [Plot2D.draw_fig, hi, hV, herr]
        cases pyIdxE s.v_axis (i : Int) <;>
          cases pyIdxE s.h_axis 3 <;>
            cases npRow s.data i <;> rfl
      · have herr : pyIdxE s.h_axis (3 : Int) = .error "IndexError" :=
          pyIdxE_of_none _ _ (pyIdx_ge_none _ _ (by omega) (by omega))
        simp only [Plot2D.draw_fig, hi, hV, herr]
        cases pyIdxE s.v_axis (i : Int) <;>
          cases pyIdxE s.v_axis ((i : Int) + 3) <;>
            cases npRow s.data i <;> rfl
    | some j =>
      rcases hcond with hc | hc
      · have herr : pyIdxE s.v_axis ((i : Int) + 3) = .error "IndexError" :=
          pyIdxE_of_none _ _ (pyIdx_ge_none _ _ (by omega) (by omega))
        simp only [Plot2D.draw_fig, hi, hV, herr]
        cases pyIdxE s.v_axis (i : Int) <;>
          cases pyIdxE s.h_axis (j : Int) <;>
            cases pyIdxE s.h_axis 3 <;>
              cases pyIdxE s.h_axis ((j : Int) - 40) <;>
                cases pyIdxE s.v_axis (-40) <;>
                  cases npRow s.data i <;>
                    cases npCol s.data j <;> rfl
      · have herr : pyIdxE s.h_axis (3 : Int) = .error "IndexError" :=
          pyIdxE_of_none _ _ (pyIdx_ge_none _ _ (by omega) (by omega))
        simp only [Plot2D.draw_fig, hi, hV, herr]
        cases pyIdxE s.v_axis (i : Int) <;>
          cases pyIdxE s.h_axis (j : Int) <;>
            cases pyIdxE s.v_axis ((i : Int) + 3) <;>
              cases pyIdxE s.h_axis ((j : Int) - 40) <;>
                cases pyIdxE s.v_axis (-40) <;>
                  cases npRow s.data i <;>
                    cases npCol s.data j <;> rfl
  · intro arr2d h_axis v_axis hinit
    unfold Plot2D.construct
    rw [hinit]

/-- A vertical slice at column 5 on the 41-point axes. -/
def s10 : Plot2DState := { s9v with vslice_val := some 5, vslice_idx := some 5 }

/-- A vertical slice on short (4-point) axes. -/
def s10b : Plot2DState :=
  { s9h with hslice_val := none, hslice_idx := none,
             vslice_val := some 1, vslice_idx := some 1 }

/-- C10 applied at two concrete states: drawing raises on the short axes,
and the wrap bound holds at slice column 5 of the 41-point axes. -/
theorem C10_witness :
    (Plot2D.draw_fig s10b {}).toOption = none ∧ 40 - 5 ≤ s10.h_axis.length := by
  constructor
  · exact (C10 s10b {}).1 rfl (by with_unfolding_all decide)
  · exact ((C10 s10 {}).2.1 (figOf (Plot2D.draw_fig s10 {})) 5
      (by with_unfolding_all rfl) rfl (by with_unfolding_all decide)).1

end Sliceplots
